import Mathlib

/-!
Verification of the natural-language specification of the SQLClient-Swift
repository against its source.  The repository's sole source file is
`Sources/CFreeTDS/include/CFreeTDS.h`, a preprocessor-guarded include shim.
We shallowly embed the C preprocessor fragment the file uses (object-like
`#ifndef` / `#ifdef` / `#else` / `#endif` conditionals, `#define`,
`#pragma once`, quoted and angle-bracket `#include`) as an executable
evaluator over an abstract file system, transcribe the header verbatim as a
list of directives, and prove the claims about it.
-/

/-- A single line of the header, as the C preprocessor sees it.  The file
contains only directives, but `cDecl` is in the type so that "the header
contributes no C declarations of its own" is a provable statement rather
than one true by construction. -/
inductive PPLine where
  | ifndefD (m : String)
  | ifdefD (m : String)
  | elseD
  | endifD
  | defineD (m : String)
  | pragmaOnceD
  | includeQuoted (path : String)
  | includeAngle (name : String)
  | cDecl (text : String)
deriving DecidableEq, Repr

/-- Whether a line is ordinary C text (a declaration) rather than a
preprocessor directive. -/
def PPLine.isDecl : PPLine → Bool
  | .cDecl _ => true
  | _ => false

/-- Whether a line is a preprocessor directive. -/
def PPLine.isDirective (l : PPLine) : Bool := !l.isDecl

/-- The compile-time environment an inclusion is resolved against:
existence of files at absolute paths (used by quoted includes of absolute
paths) and the compiler's include search path (used by angle-bracket
includes), abstracted as a resolution function. -/
structure FileSys where
  fileExists : String → Bool
  searchResolve : String → Option String

/-- The ways preprocessing of this fragment can stop with an error. -/
inductive PPError where
  | missingQuoted (path : String)
  | missingAngle (name : String)
  | unmatchedElse
  | unmatchedEndif
  | unterminatedConditional
deriving DecidableEq, Repr

/-- Observable preprocessing state: the set of defined macros, the include
directives actually executed (in order), the resolved files included (in
order), and any C declarations the file itself contributed. -/
structure PPState where
  defined : List String
  directivesRun : List PPLine
  files : List String
  decls : List String
deriving DecidableEq, Repr

/-- A conditional-stack frame: first component is whether the current
branch is active, second whether a subsequent `#else` branch would be
active. -/
abbrev Frame := Bool × Bool

/-- Whether lines at the current nesting are processed. -/
def curActive : List Frame → Bool
  | [] => true
  | f :: _ => f.1

/-- One step of the preprocessor on a single line.  Returns the updated
state, the updated conditional stack, and an error if the step is fatal. -/
def ppLine (fs : FileSys) (st : PPState) (stack : List Frame) :
    PPLine → PPState × List Frame × Option PPError
  | .ifndefD m =>
      (st, ((curActive stack && !(decide (m ∈ st.defined))),
            (curActive stack && decide (m ∈ st.defined))) :: stack, none)
  | .ifdefD m =>
      (st, ((curActive stack && decide (m ∈ st.defined)),
            (curActive stack && !(decide (m ∈ st.defined)))) :: stack, none)
  | .elseD =>
      match stack with
      | [] => (st, [], some .unmatchedElse)
      | f :: rest => (st, (f.2, false) :: rest, none)
  | .endifD =>
      match stack with
      | [] => (st, [], some .unmatchedEndif)
      | _ :: rest => (st, rest, none)
  | .defineD m =>
      if curActive stack then
        (if m ∈ st.defined then st else { st with defined := m :: st.defined },
         stack, none)
      else (st, stack, none)
  | .pragmaOnceD => (st, stack, none)
  | .includeQuoted p =>
      if curActive stack then
        if fs.fileExists p then
          ({ st with directivesRun := st.directivesRun ++ [.includeQuoted p],
                     files := st.files ++ [p] }, stack, none)
        else
          ({ st with directivesRun := st.directivesRun ++ [.includeQuoted p] },
           stack, some (.missingQuoted p))
      else (st, stack, none)
  | .includeAngle n =>
      if curActive stack then
        match fs.searchResolve n with
        | some p =>
            ({ st with directivesRun := st.directivesRun ++ [.includeAngle n],
                       files := st.files ++ [p] }, stack, none)
        | none =>
            ({ st with directivesRun := st.directivesRun ++ [.includeAngle n] },
             stack, some (.missingAngle n))
      else (st, stack, none)
  | .cDecl t =>
      if curActive stack then
        ({ st with decls := st.decls ++ [t] }, stack, none)
      else (st, stack, none)

/-- Run the preprocessor over a list of lines, stopping at the first fatal
error; an unterminated conditional at end of file is also an error. -/
def ppRunAux (fs : FileSys) :
    List PPLine → PPState → List Frame → PPState × List Frame × Option PPError
  | [], st, stack =>
      (st, stack, if stack.isEmpty then none else some .unterminatedConditional)
  | l :: ls, st, stack =>
      match ppLine fs st stack l with
      | (st1, stack1, none) => ppRunAux fs ls st1 stack1
      | (st1, stack1, some e) => (st1, stack1, some e)

/-- The state a translation unit starts in: the macros predefined by the
platform and command line, nothing yet included. -/
def initState (d : List String) : PPState := ⟨d, [], [], []⟩

/-- Preprocess a file starting from an arbitrary translation-unit state
(used to model a second inclusion of the same file). -/
def ppFromState (fs : FileSys) (lines : List PPLine) (st : PPState) :
    PPState × Option PPError :=
  ((ppRunAux fs lines st []).1, (ppRunAux fs lines st []).2.2)

/-- A fresh preprocessing run of a file, given the predefined macros. -/
def ppFile (fs : FileSys) (lines : List PPLine) (d : List String) :
    PPState × Option PPError :=
  ppFromState fs lines (initState d)

/-- Include the same file `n` times in a row within one translation unit,
threading the state through; stops at the first failing inclusion. -/
def ppIter (fs : FileSys) (lines : List PPLine) :
    Nat → PPState → PPState × Option PPError
  | 0, st => (st, none)
  | n + 1, st =>
      match ppFromState fs lines st with
      | (st1, none) => ppIter fs lines n st1
      | (st1, some e) => (st1, some e)

/-- The hardcoded Intel-Homebrew path of `sybdb.h` on the `__APPLE__`
branch, from line 7 of the source. -/
def sybdbApplePath : String := "/usr/local/opt/freetds/include/sybdb.h"

/-- The hardcoded Intel-Homebrew path of `sybfront.h` on the `__APPLE__`
branch, from line 8 of the source. -/
def sybfrontApplePath : String := "/usr/local/opt/freetds/include/sybfront.h"

/-- Transcription of `Sources/CFreeTDS/include/CFreeTDS.h`, line by line:
the `CFREETDS_H` include guard, `#pragma once`, and the `#ifdef __APPLE__`
conditional selecting the hardcoded Homebrew paths or the system headers. -/
def CFreeTDS_h : List PPLine :=
  [ .ifndefD "CFREETDS_H",
    .defineD "CFREETDS_H",
    .pragmaOnceD,
    .ifdefD "__APPLE__",
    .includeQuoted sybdbApplePath,
    .includeQuoted sybfrontApplePath,
    .elseD,
    .includeAngle "sybdb.h",
    .includeAngle "sybfront.h",
    .endifD,
    .endifD ]

/-- The part of the hardcoded Apple `sybdb.h` path below the Homebrew
prefix. -/
def freetdsSybdbSuffix : String := "/freetds/include/sybdb.h"

/-- The part of the hardcoded Apple `sybfront.h` path below the Homebrew
prefix. -/
def freetdsSybfrontSuffix : String := "/freetds/include/sybfront.h"

/-- Modelled from the spec: the repository's second copy of the include
shim header, which is not under `src/`.  Per the spec it is identical to
`CFreeTDS.h` except that its hardcoded Homebrew path uses the Apple-Silicon
prefix `/opt/homebrew/...` where the copy under `src/` uses
`/usr/local/opt/...`. -/
def CFreeTDS_h_brew : List PPLine :=
  [ .ifndefD "CFREETDS_H",
    .defineD "CFREETDS_H",
    .pragmaOnceD,
    .ifdefD "__APPLE__",
    .includeQuoted ("/opt/homebrew" ++ freetdsSybdbSuffix),
    .includeQuoted ("/opt/homebrew" ++ freetdsSybfrontSuffix),
    .elseD,
    .includeAngle "sybdb.h",
    .includeAngle "sybfront.h",
    .endifD,
    .endifD ]

/-- Rewrites the Intel-Homebrew hardcoded paths to their Apple-Silicon
counterparts and leaves every other line untouched. -/
def swapApplePathLine : PPLine → PPLine
  | .includeQuoted p =>
      .includeQuoted
        (if p = "/usr/local/opt" ++ freetdsSybdbSuffix then
           "/opt/homebrew" ++ freetdsSybdbSuffix
         else if p = "/usr/local/opt" ++ freetdsSybfrontSuffix then
           "/opt/homebrew" ++ freetdsSybfrontSuffix
         else p)
  | l => l

/-- A concrete environment in which every file exists and every
angle-bracket include resolves under `/usr/include`. -/
def fsAll : FileSys :=
  ⟨fun _ => true, fun n => some ("/usr/include/" ++ n)⟩

/-- A concrete environment with no files at all. -/
def fsNone : FileSys := ⟨fun _ => false, fun _ => none⟩

/-- A concrete environment in which exactly the two hardcoded Apple paths
exist and the include search path finds nothing. -/
def fsAppleOnly : FileSys :=
  ⟨fun p => p = sybdbApplePath || p = sybfrontApplePath, fun _ => none⟩

/-- If the include-guard macro is already defined when the file is
included, the whole file is inert: state unchanged, no error. -/
theorem pp_guard_defined (fs : FileSys) (st : PPState)
    (h : "CFREETDS_H" ∈ st.defined) :
    ppFromState fs CFreeTDS_h st = (st, none) := by
  simp [ppFromState, ppRunAux, ppLine, CFreeTDS_h, curActive, h]

/-- Fresh run, `__APPLE__` defined, both hardcoded headers present: the two
Homebrew-path headers are included, in order, and the run succeeds. -/
theorem pp_apple_ok (fs : FileSys) (d : List String)
    (hg : "CFREETDS_H" ∉ d) (ha : "__APPLE__" ∈ d)
    (h1 : fs.fileExists sybdbApplePath = true)
    (h2 : fs.fileExists sybfrontApplePath = true) :
    ppFile fs CFreeTDS_h d =
      (⟨"CFREETDS_H" :: d,
        [.includeQuoted sybdbApplePath, .includeQuoted sybfrontApplePath],
        [sybdbApplePath, sybfrontApplePath], []⟩, none) := by
  simp [ppFile, ppFromState, ppRunAux, ppLine, CFreeTDS_h, curActive, initState,
    hg, ha, h1, h2, List.mem_cons]

/-- Fresh run, `__APPLE__` defined, the hardcoded `sybdb.h` absent: the run
fails on the first include, nothing is included. -/
theorem pp_apple_err1 (fs : FileSys) (d : List String)
    (hg : "CFREETDS_H" ∉ d) (ha : "__APPLE__" ∈ d)
    (h1 : fs.fileExists sybdbApplePath = false) :
    ppFile fs CFreeTDS_h d =
      (⟨"CFREETDS_H" :: d, [.includeQuoted sybdbApplePath], [], []⟩,
       some (.missingQuoted sybdbApplePath)) := by
  simp [ppFile, ppFromState, ppRunAux, ppLine, CFreeTDS_h, curActive, initState,
    hg, ha, h1, List.mem_cons]

/-- Fresh run, `__APPLE__` defined, hardcoded `sybdb.h` present but
`sybfront.h` absent: the run fails on the second include. -/
theorem pp_apple_err2 (fs : FileSys) (d : List String)
    (hg : "CFREETDS_H" ∉ d) (ha : "__APPLE__" ∈ d)
    (h1 : fs.fileExists sybdbApplePath = true)
    (h2 : fs.fileExists sybfrontApplePath = false) :
    ppFile fs CFreeTDS_h d =
      (⟨"CFREETDS_H" :: d,
        [.includeQuoted sybdbApplePath, .includeQuoted sybfrontApplePath],
        [sybdbApplePath], []⟩,
       some (.missingQuoted sybfrontApplePath)) := by
  simp [ppFile, ppFromState, ppRunAux, ppLine, CFreeTDS_h, curActive, initState,
    hg, ha, h1, h2, List.mem_cons]

/-- Fresh run, `__APPLE__` not defined, both angle-bracket includes resolve
on the search path: the two resolved headers are included and the run
succeeds. -/
theorem pp_else_ok (fs : FileSys) (d : List String) (p q : String)
    (hg : "CFREETDS_H" ∉ d) (ha : "__APPLE__" ∉ d)
    (hr1 : fs.searchResolve "sybdb.h" = some p)
    (hr2 : fs.searchResolve "sybfront.h" = some q) :
    ppFile fs CFreeTDS_h d =
      (⟨"CFREETDS_H" :: d,
        [.includeAngle "sybdb.h", .includeAngle "sybfront.h"], [p, q], []⟩,
       none) := by
  simp [ppFile, ppFromState, ppRunAux, ppLine, CFreeTDS_h, curActive, initState,
    hg, ha, hr1, hr2, List.mem_cons]

/-- Fresh run, `__APPLE__` not defined, `sybdb.h` not found on the search
path: the run fails on the first include. -/
theorem pp_else_err1 (fs : FileSys) (d : List String)
    (hg : "CFREETDS_H" ∉ d) (ha : "__APPLE__" ∉ d)
    (hr1 : fs.searchResolve "sybdb.h" = none) :
    ppFile fs CFreeTDS_h d =
      (⟨"CFREETDS_H" :: d, [.includeAngle "sybdb.h"], [], []⟩,
       some (.missingAngle "sybdb.h")) := by
  simp [ppFile, ppFromState, ppRunAux, ppLine, CFreeTDS_h, curActive, initState,
    hg, ha, hr1, List.mem_cons]

/-- Fresh run, `__APPLE__` not defined, `sybdb.h` found but `sybfront.h`
not found on the search path: the run fails on the second include. -/
theorem pp_else_err2 (fs : FileSys) (d : List String) (p : String)
    (hg : "CFREETDS_H" ∉ d) (ha : "__APPLE__" ∉ d)
    (hr1 : fs.searchResolve "sybdb.h" = some p)
    (hr2 : fs.searchResolve "sybfront.h" = none) :
    ppFile fs CFreeTDS_h d =
      (⟨"CFREETDS_H" :: d,
        [.includeAngle "sybdb.h", .includeAngle "sybfront.h"], [p], []⟩,
       some (.missingAngle "sybfront.h")) := by
  simp [ppFile, ppFromState, ppRunAux, ppLine, CFreeTDS_h, curActive, initState,
    hg, ha, hr1, hr2, List.mem_cons]

/-- Helper: the shape of the state after any fresh run — no declarations
contributed, and the defined set grows by exactly the include guard. -/
theorem pp_state_shape (fs : FileSys) (d : List String) :
    (ppFile fs CFreeTDS_h d).1.decls = [] ∧
    (ppFile fs CFreeTDS_h d).1.defined =
      (if "CFREETDS_H" ∈ d then d else "CFREETDS_H" :: d) := by
  by_cases hg : "CFREETDS_H" ∈ d
  · rw [show ppFile fs CFreeTDS_h d = _ from pp_guard_defined fs (initState d) hg,
        if_pos hg]
    exact ⟨rfl, rfl⟩
  · rw [if_neg hg]
    by_cases ha : "__APPLE__" ∈ d
    · rcases Bool.eq_false_or_eq_true (fs.fileExists sybdbApplePath) with e1 | e1
      · rcases Bool.eq_false_or_eq_true (fs.fileExists sybfrontApplePath) with e2 | e2
        · rw [pp_apple_ok fs d hg ha e1 e2]; exact ⟨rfl, rfl⟩
        · rw [pp_apple_err2 fs d hg ha e1 e2]; exact ⟨rfl, rfl⟩
      · rw [pp_apple_err1 fs d hg ha e1]; exact ⟨rfl, rfl⟩
    · cases hr1 : fs.searchResolve "sybdb.h" with
      | none => rw [pp_else_err1 fs d hg ha hr1]; exact ⟨rfl, rfl⟩
      | some p =>
        cases hr2 : fs.searchResolve "sybfront.h" with
        | none => rw [pp_else_err2 fs d p hg ha hr1 hr2]; exact ⟨rfl, rfl⟩
        | some q => rw [pp_else_ok fs d p q hg ha hr1 hr2]; exact ⟨rfl, rfl⟩

/-- Helper: every run of the header leaves its include guard defined. -/
theorem pp_guard_after (fs : FileSys) (d : List String) :
    "CFREETDS_H" ∈ (ppFile fs CFreeTDS_h d).1.defined := by
  rw [(pp_state_shape fs d).2]
  by_cases hg : "CFREETDS_H" ∈ d
  · rwa [if_pos hg]
  · rw [if_neg hg]; exact List.mem_cons_self _ _

/-- Helper: iterating the header over a state that already has the guard
defined changes nothing, however many times. -/
theorem ppIter_guard (fs : FileSys) (n : Nat) (st : PPState)
    (h : "CFREETDS_H" ∈ st.defined) :
    ppIter fs CFreeTDS_h n st = (st, none) := by
  induction n with
  | zero => rfl
  | succ n ih => simp only [ppIter, pp_guard_defined fs st h]; exact ih

/-- C1: a fresh preprocessing run of CFreeTDS.h with `__APPLE__` defined
includes exactly the two FreeTDS headers at the Homebrew install paths
`/usr/local/opt/freetds/include/sybdb.h` and `.../sybfront.h`; with
`__APPLE__` undefined it includes exactly `<sybdb.h>` and `<sybfront.h>`
as resolved through the system include search path. -/
theorem C1_platform_include_selection (fs : FileSys) (d : List String)
    (hg : "CFREETDS_H" ∉ d) :
    ("__APPLE__" ∈ d →
      fs.fileExists sybdbApplePath = true →
      fs.fileExists sybfrontApplePath = true →
      (ppFile fs CFreeTDS_h d).1.files = [sybdbApplePath, sybfrontApplePath] ∧
      (ppFile fs CFreeTDS_h d).2 = none) ∧
    ("__APPLE__" ∉ d → ∀ p q : String,
      fs.searchResolve "sybdb.h" = some p →
      fs.searchResolve "sybfront.h" = some q →
      (ppFile fs CFreeTDS_h d).1.files = [p, q] ∧
      (ppFile fs CFreeTDS_h d).2 = none) := by
  constructor
  · intro ha h1 h2
    rw [pp_apple_ok fs d hg ha h1 h2]
    exact ⟨rfl, rfl⟩
  · intro ha p q hr1 hr2
    rw [pp_else_ok fs d p q hg ha hr1 hr2]
    exact ⟨rfl, rfl⟩

/-- Witness for C1 at a concrete Apple-like environment. -/
theorem C1_platform_include_selection_witness :
    (ppFile fsAll CFreeTDS_h ["__APPLE__"]).1.files =
      [sybdbApplePath, sybfrontApplePath] ∧
    (ppFile fsAll CFreeTDS_h ["__APPLE__"]).2 = none := by
  refine (C1_platform_include_selection fsAll ["__APPLE__"] ?_).1 ?_ ?_ ?_ <;> decide

/-- C2: a fresh preprocessing run of CFreeTDS.h fails exactly when one of
the two headers selected by the platform branch is absent — at the
hardcoded path with `__APPLE__` defined, on the include search path
otherwise — and succeeds whenever both are present; there is no other
failure mode. -/
theorem C2_failure_iff_header_absent (fs : FileSys) (d : List String)
    (hg : "CFREETDS_H" ∉ d) :
    ((ppFile fs CFreeTDS_h d).2 = none ↔
      if "__APPLE__" ∈ d then
        fs.fileExists sybdbApplePath = true ∧
        fs.fileExists sybfrontApplePath = true
      else
        (fs.searchResolve "sybdb.h").isSome ∧
        (fs.searchResolve "sybfront.h").isSome) := by
  by_cases ha : "__APPLE__" ∈ d
  · rw [if_pos ha]
    rcases Bool.eq_false_or_eq_true (fs.fileExists sybdbApplePath) with e1 | e1
    · rcases Bool.eq_false_or_eq_true (fs.fileExists sybfrontApplePath) with e2 | e2
      · rw [pp_apple_ok fs d hg ha e1 e2]; simp [e1, e2]
      · rw [pp_apple_err2 fs d hg ha e1 e2]; simp [e2]
    · rw [pp_apple_err1 fs d hg ha e1]; simp [e1]
  · rw [if_neg ha]
    cases hr1 : fs.searchResolve "sybdb.h" with
    | none => rw [pp_else_err1 fs d hg ha hr1]; simp [hr1]
    | some p =>
      cases hr2 : fs.searchResolve "sybfront.h" with
      | none => rw [pp_else_err2 fs d p hg ha hr1 hr2]; simp [hr1, hr2]
      | some q => rw [pp_else_ok fs d p q hg ha hr1 hr2]; simp [hr1, hr2]

/-- Witness for C2 at a concrete environment missing every header. -/
theorem C2_failure_iff_header_absent_witness :
    ((ppFile fsNone CFreeTDS_h ["__APPLE__"]).2 = none ↔
      if "__APPLE__" ∈ (["__APPLE__"] : List String) then
        fsNone.fileExists sybdbApplePath = true ∧
        fsNone.fileExists sybfrontApplePath = true
      else
        (fsNone.searchResolve "sybdb.h").isSome ∧
        (fsNone.searchResolve "sybfront.h").isSome) := by
  exact C2_failure_iff_header_absent fsNone ["__APPLE__"] (by decide)

/-- Counterexample to C3 as stated: two preprocessing runs that agree on
`__APPLE__` (defined in both) but differ on the macro `CFREETDS_H` — the
header's own include guard, which a run may predefine — include different
sets of files: the first run includes the two Homebrew headers, the second
includes nothing. -/
theorem C3_counterexample_guard_macro :
    ("__APPLE__" ∈ (["__APPLE__"] : List String) ↔
      "__APPLE__" ∈ (["__APPLE__", "CFREETDS_H"] : List String)) ∧
    (ppFile fsAll CFreeTDS_h ["__APPLE__"]).1.files ≠
      (ppFile fsAll CFreeTDS_h ["__APPLE__", "CFREETDS_H"]).1.files := by
  decide

/-- C3 (amended): the include directives executed by CFreeTDS.h are a
deterministic function of exactly two macros, `__APPLE__` and the include
guard `CFREETDS_H`: any two error-free preprocessing runs that agree on
whether each of these two is defined execute the same include directives,
regardless of any other macro or of the environment. -/
theorem C3_two_macro_determinism (fs1 fs2 : FileSys) (d1 d2 : List String)
    (hA : "__APPLE__" ∈ d1 ↔ "__APPLE__" ∈ d2)
    (hG : "CFREETDS_H" ∈ d1 ↔ "CFREETDS_H" ∈ d2)
    (h1 : (ppFile fs1 CFreeTDS_h d1).2 = none)
    (h2 : (ppFile fs2 CFreeTDS_h d2).2 = none) :
    (ppFile fs1 CFreeTDS_h d1).1.directivesRun =
      (ppFile fs2 CFreeTDS_h d2).1.directivesRun := by
  by_cases hg1 : "CFREETDS_H" ∈ d1
  · have hg2 : "CFREETDS_H" ∈ d2 := hG.mp hg1
    rw [show ppFile fs1 CFreeTDS_h d1 = _ from pp_guard_defined fs1 (initState d1) hg1,
        show ppFile fs2 CFreeTDS_h d2 = _ from pp_guard_defined fs2 (initState d2) hg2]
    rfl
  · have hg2 : "CFREETDS_H" ∉ d2 := fun h => hg1 (hG.mpr h)
    by_cases ha1 : "__APPLE__" ∈ d1
    · have ha2 : "__APPLE__" ∈ d2 := hA.mp ha1
      rcases Bool.eq_false_or_eq_true (fs1.fileExists sybdbApplePath) with e1 | e1
      · rcases Bool.eq_false_or_eq_true (fs1.fileExists sybfrontApplePath) with f1 | f1
        · rcases Bool.eq_false_or_eq_true (fs2.fileExists sybdbApplePath) with e2 | e2
          · rcases Bool.eq_false_or_eq_true (fs2.fileExists sybfrontApplePath) with f2 | f2
            · rw [pp_apple_ok fs1 d1 hg1 ha1 e1 f1, pp_apple_ok fs2 d2 hg2 ha2 e2 f2]
            · rw [pp_apple_err2 fs2 d2 hg2 ha2 e2 f2] at h2; simp at h2
          · rw [pp_apple_err1 fs2 d2 hg2 ha2 e2] at h2; simp at h2
        · rw [pp_apple_err2 fs1 d1 hg1 ha1 e1 f1] at h1; simp at h1
      · rw [pp_apple_err1 fs1 d1 hg1 ha1 e1] at h1; simp at h1
    · have ha2 : "__APPLE__" ∉ d2 := fun h => ha1 (hA.mpr h)
      cases hr1 : fs1.searchResolve "sybdb.h" with
      | none => rw [pp_else_err1 fs1 d1 hg1 ha1 hr1] at h1; simp at h1
      | some p1 =>
        cases hs1 : fs1.searchResolve "sybfront.h" with
        | none => rw [pp_else_err2 fs1 d1 p1 hg1 ha1 hr1 hs1] at h1; simp at h1
        | some q1 =>
          cases hr2 : fs2.searchResolve "sybdb.h" with
          | none => rw [pp_else_err1 fs2 d2 hg2 ha2 hr2] at h2; simp at h2
          | some p2 =>
            cases hs2 : fs2.searchResolve "sybfront.h" with
            | none => rw [pp_else_err2 fs2 d2 p2 hg2 ha2 hr2 hs2] at h2; simp at h2
            | some q2 =>
              rw [pp_else_ok fs1 d1 p1 q1 hg1 ha1 hr1 hs1,
                  pp_else_ok fs2 d2 p2 q2 hg2 ha2 hr2 hs2]

/-- Witness for the amended C3: two runs under different environments and
different extra macros, both with `__APPLE__` defined and the guard fresh,
execute the same include directives. -/
theorem C3_two_macro_determinism_witness :
    (ppFile fsAll CFreeTDS_h ["__APPLE__"]).1.directivesRun =
      (ppFile fsAppleOnly CFreeTDS_h ["OTHER_MACRO", "__APPLE__"]).1.directivesRun := by
  refine C3_two_macro_determinism fsAll fsAppleOnly ["__APPLE__"]
    ["OTHER_MACRO", "__APPLE__"] ?_ ?_ ?_ ?_ <;> decide

/-- C4: the repository's two copies of the include shim are identical
except for the hardcoded Homebrew path: mapping the Intel prefix
`/usr/local/opt` to the Apple-Silicon prefix `/opt/homebrew` on quoted
include paths turns the copy under `src/` into the other copy, and every
line other than the two quoted includes (positions 4 and 5) is literally
the same in both copies. -/
theorem C4_two_copies_differ_only_in_prefix :
    CFreeTDS_h_brew = CFreeTDS_h.map swapApplePathLine ∧
    sybdbApplePath = "/usr/local/opt" ++ freetdsSybdbSuffix ∧
    sybfrontApplePath = "/usr/local/opt" ++ freetdsSybfrontSuffix ∧
    (∀ i : Fin 11, CFreeTDS_h_brew[i.val]? = CFreeTDS_h[i.val]? ∨
      i.val = 4 ∨ i.val = 5) := by
  decide

/-- C5: CFreeTDS.h introduces no C declarations, definitions, or
alterations of its own: none of its lines is C text, every run contributes
an empty list of own declarations, and the only macro it touches is its
own include guard `CFREETDS_H`, which it adds to the defined set and
nothing else. -/
theorem C5_no_own_declarations (fs : FileSys) (d : List String) :
    CFreeTDS_h.all (fun l => ! l.isDecl) = true ∧
    (ppFile fs CFreeTDS_h d).1.decls = [] ∧
    (ppFile fs CFreeTDS_h d).1.defined =
      (if "CFREETDS_H" ∈ d then d else "CFREETDS_H" :: d) :=
  ⟨by decide, (pp_state_shape fs d).1, (pp_state_shape fs d).2⟩

/-- C6: CFreeTDS.h contributes no runtime behavior: every line of the file
is a preprocessor directive, fully resolved at compile time, and no run of
it emits any executable C text. -/
theorem C6_compile_time_only (fs : FileSys) (d : List String) :
    CFreeTDS_h.all PPLine.isDirective = true ∧
    (ppFile fs CFreeTDS_h d).1.decls = [] :=
  ⟨by decide, (pp_state_shape fs d).1⟩

/-- C7: including CFreeTDS.h is idempotent within a translation unit:
thanks to the `CFREETDS_H` include guard, including the header `n ≥ 1`
times yields exactly the same state — declarations, included files and
macro definitions — as including it once. -/
theorem C7_idempotent_inclusion (fs : FileSys) (d : List String) (n : Nat)
    (hn : 1 ≤ n) :
    ppIter fs CFreeTDS_h n (initState d) = ppFile fs CFreeTDS_h d := by
  obtain ⟨m, rfl⟩ : ∃ m, n = m + 1 := ⟨n - 1, (Nat.succ_pred_eq_of_pos hn).symm⟩
  rcases hres : ppFromState fs CFreeTDS_h (initState d) with ⟨st1, e⟩
  cases e with
  | none =>
      simp only [ppIter, hres]
      have hg : "CFREETDS_H" ∈ st1.defined := by
        have h := pp_guard_after fs d
        rw [show ppFile fs CFreeTDS_h d = (st1, none) from hres] at h
        exact h
      rw [ppIter_guard fs m st1 hg,
          show ppFile fs CFreeTDS_h d = (st1, none) from hres]
  | some err =>
      simp only [ppIter, hres]
      rw [show ppFile fs CFreeTDS_h d = (st1, some err) from hres]

/-- Witness for C7: three consecutive inclusions under a concrete
environment equal a single one. -/
theorem C7_idempotent_inclusion_witness :
    ppIter fsAll CFreeTDS_h 3 (initState ["__APPLE__"]) =
      ppFile fsAll CFreeTDS_h ["__APPLE__"] :=
  C7_idempotent_inclusion fsAll ["__APPLE__"] 3 (by decide)

/-- C8: on the `__APPLE__` branch the include directives use absolute
paths, so resolution bypasses the include search path entirely: the
outcome of a fresh Apple run depends only on whether files exist at the
two hardcoded `/usr/local/opt` paths — two environments agreeing there
but differing arbitrarily elsewhere (other locations such as
`/opt/homebrew`, or the `-I` search path) produce identical runs. -/
theorem C8_apple_branch_ignores_search_path (fs1 fs2 : FileSys)
    (d : List String) (hg : "CFREETDS_H" ∉ d) (ha : "__APPLE__" ∈ d)
    (h1 : fs1.fileExists sybdbApplePath = fs2.fileExists sybdbApplePath)
    (h2 : fs1.fileExists sybfrontApplePath = fs2.fileExists sybfrontApplePath) :
    ppFile fs1 CFreeTDS_h d = ppFile fs2 CFreeTDS_h d := by
  rcases Bool.eq_false_or_eq_true (fs1.fileExists sybdbApplePath) with e1 | e1
  · rcases Bool.eq_false_or_eq_true (fs1.fileExists sybfrontApplePath) with e2 | e2
    · rw [pp_apple_ok fs1 d hg ha e1 e2,
          pp_apple_ok fs2 d hg ha (h1.symm.trans e1) (h2.symm.trans e2)]
    · rw [pp_apple_err2 fs1 d hg ha e1 e2,
          pp_apple_err2 fs2 d hg ha (h1.symm.trans e1) (h2.symm.trans e2)]
  · rw [pp_apple_err1 fs1 d hg ha e1,
        pp_apple_err1 fs2 d hg ha (h1.symm.trans e1)]

/-- Witness for C8: an environment in which only the two hardcoded paths
exist and the search path finds nothing behaves exactly like one in which
everything exists and resolves. -/
theorem C8_apple_branch_ignores_search_path_witness :
    ppFile fsAppleOnly CFreeTDS_h ["__APPLE__"] =
      ppFile fsAll CFreeTDS_h ["__APPLE__"] := by
  refine C8_apple_branch_ignores_search_path fsAppleOnly fsAll ["__APPLE__"]
    ?_ ?_ ?_ ?_ <;> decide

/-- C9: in every fresh, error-free preprocessing run of CFreeTDS.h exactly
one of the two branches of the `#ifdef __APPLE__` conditional is executed:
the run's include directives are either exactly the Homebrew-path pair or
exactly the system-header pair, never both and never neither. -/
theorem C9_exactly_one_branch (fs : FileSys) (d : List String)
    (hg : "CFREETDS_H" ∉ d)
    (hok : (ppFile fs CFreeTDS_h d).2 = none) :
    ((ppFile fs CFreeTDS_h d).1.directivesRun =
        [.includeQuoted sybdbApplePath, .includeQuoted sybfrontApplePath] ∧
      (ppFile fs CFreeTDS_h d).1.directivesRun ≠
        [.includeAngle "sybdb.h", .includeAngle "sybfront.h"]) ∨
    ((ppFile fs CFreeTDS_h d).1.directivesRun =
        [.includeAngle "sybdb.h", .includeAngle "sybfront.h"] ∧
      (ppFile fs CFreeTDS_h d).1.directivesRun ≠
        [.includeQuoted sybdbApplePath, .includeQuoted sybfrontApplePath]) := by
  by_cases ha : "__APPLE__" ∈ d
  · left
    rcases Bool.eq_false_or_eq_true (fs.fileExists sybdbApplePath) with e1 | e1
    · rcases Bool.eq_false_or_eq_true (fs.fileExists sybfrontApplePath) with e2 | e2
      · rw [pp_apple_ok fs d hg ha e1 e2]
        refine ⟨rfl, ?_⟩
        show [PPLine.includeQuoted sybdbApplePath, PPLine.includeQuoted sybfrontApplePath] ≠
          [PPLine.includeAngle "sybdb.h", PPLine.includeAngle "sybfront.h"]
        decide
      · rw [pp_apple_err2 fs d hg ha e1 e2] at hok; simp at hok
    · rw [pp_apple_err1 fs d hg ha e1] at hok; simp at hok
  · right
    cases hr1 : fs.searchResolve "sybdb.h" with
    | none => rw [pp_else_err1 fs d hg ha hr1] at hok; simp at hok
    | some p =>
      cases hr2 : fs.searchResolve "sybfront.h" with
      | none => rw [pp_else_err2 fs d p hg ha hr1 hr2] at hok; simp at hok
      | some q =>
        rw [pp_else_ok fs d p q hg ha hr1 hr2]
        refine ⟨rfl, ?_⟩
        show [PPLine.includeAngle "sybdb.h", PPLine.includeAngle "sybfront.h"] ≠
          [PPLine.includeQuoted sybdbApplePath, PPLine.includeQuoted sybfrontApplePath]
        decide

/-- Witness for C9: the non-Apple branch is the one executed in a concrete
non-Apple run. -/
theorem C9_exactly_one_branch_witness :
    ((ppFile fsAll CFreeTDS_h []).1.directivesRun =
        [.includeQuoted sybdbApplePath, .includeQuoted sybfrontApplePath] ∧
      (ppFile fsAll CFreeTDS_h []).1.directivesRun ≠
        [.includeAngle "sybdb.h", .includeAngle "sybfront.h"]) ∨
    ((ppFile fsAll CFreeTDS_h []).1.directivesRun =
        [.includeAngle "sybdb.h", .includeAngle "sybfront.h"] ∧
      (ppFile fsAll CFreeTDS_h []).1.directivesRun ≠
        [.includeQuoted sybdbApplePath, .includeQuoted sybfrontApplePath]) := by
  refine C9_exactly_one_branch fsAll [] ?_ ?_ <;> decide
